import Mathlib

/-!
Verification of the HOOT01 protocol stack (hootpy): frame codec, envelope
codec, error taxonomy, service dispatch and client retry loop.

Each definition is a shallow embedding of the corresponding Python function
in src/python/hootpy/hootpy/{frame,service,client,protocol,errors}.py.
Python `bytes` are modelled as `List Nat` (one Nat per byte), Python `str`
values that travel through the frame codec are modelled by their UTF-8 byte
encodings (UTF-8 is injective, so this representation is faithful), and
Python dictionaries are modelled as association lists with in-place update.
-/

namespace Hoot

/-- A byte string: one `Nat` per byte (values < 256 in well-formed data). -/
abbrev Bytes := List Nat

/-- The fixed protocol marker `b"HOOT01"` (frame.py, `PROTOCOL_VERSION`). -/
def protocolVersion : Bytes := [72, 79, 79, 84, 48, 49]

/-- frame.py `FRAME_COUNT = 7`. -/
def frameCount : Nat := 7

/-- frame.py `Command` (2-byte big-endian enum). -/
inductive Command
  | ready
  | request
  | reply
  | heartbeat
  | disconnect
deriving DecidableEq, Repr

/-- The numeric wire code of a command (frame.py enum values). -/
def Command.code : Command → Nat
  | .ready => 0x0001
  | .request => 0x0002
  | .reply => 0x0003
  | .heartbeat => 0x0004
  | .disconnect => 0x0005

/-- `Command(value)`: the enum constructor, `none` models the `ValueError`
raised by Python on an unrecognized value. -/
def Command.ofCode? : Nat → Option Command
  | 0x0001 => some .ready
  | 0x0002 => some .request
  | 0x0003 => some .reply
  | 0x0004 => some .heartbeat
  | 0x0005 => some .disconnect
  | _ => none

/-- frame.py `ContentType` (2-byte big-endian enum). -/
inductive ContentType
  | empty
  | capnproto
  | rawBinary
  | json
deriving DecidableEq, Repr

/-- The numeric wire code of a content type (frame.py enum values). -/
def ContentType.code : ContentType → Nat
  | .empty => 0x0000
  | .capnproto => 0x0001
  | .rawBinary => 0x0002
  | .json => 0x0003

/-- `ContentType(value)` with `none` for the `ValueError` case. -/
def ContentType.ofCode? : Nat → Option ContentType
  | 0x0000 => some .empty
  | 0x0001 => some .capnproto
  | 0x0002 => some .rawBinary
  | 0x0003 => some .json
  | _ => none

/-- Python `frame.content_type.name`, used in error messages. -/
def ContentType.enumName : ContentType → String
  | .empty => "EMPTY"
  | .capnproto => "CAPNPROTO"
  | .rawBinary => "RAW_BINARY"
  | .json => "JSON"

/-- Is this byte a UTF-8 continuation byte (0x80-0xBF)? -/
def utf8Cont (b : Nat) : Bool := 0x80 ≤ b && b ≤ 0xBF

/-- Strict UTF-8 validity of a byte string, as enforced by Python's
`bytes.decode("utf-8")`: rejects overlong encodings, surrogates and
code points above U+10FFFF. -/
def utf8Valid : Bytes → Bool
  | [] => true
  | b :: rest =>
    if b ≤ 0x7F then utf8Valid rest
    else if 0xC2 ≤ b && b ≤ 0xDF then
      match rest with
      | c1 :: r => utf8Cont c1 && utf8Valid r
      | [] => false
    else if b == 0xE0 then
      match rest with
      | c1 :: c2 :: r => (0xA0 ≤ c1 && c1 ≤ 0xBF) && utf8Cont c2 && utf8Valid r
      | _ => false
    else if 0xE1 ≤ b && b ≤ 0xEC then
      match rest with
      | c1 :: c2 :: r => utf8Cont c1 && utf8Cont c2 && utf8Valid r
      | _ => false
    else if b == 0xED then
      match rest with
      | c1 :: c2 :: r => (0x80 ≤ c1 && c1 ≤ 0x9F) && utf8Cont c2 && utf8Valid r
      | _ => false
    else if 0xEE ≤ b && b ≤ 0xEF then
      match rest with
      | c1 :: c2 :: r => utf8Cont c1 && utf8Cont c2 && utf8Valid r
      | _ => false
    else if b == 0xF0 then
      match rest with
      | c1 :: c2 :: c3 :: r =>
        (0x90 ≤ c1 && c1 ≤ 0xBF) && utf8Cont c2 && utf8Cont c3 && utf8Valid r
      | _ => false
    else if 0xF1 ≤ b && b ≤ 0xF3 then
      match rest with
      | c1 :: c2 :: c3 :: r => utf8Cont c1 && utf8Cont c2 && utf8Cont c3 && utf8Valid r
      | _ => false
    else if b == 0xF4 then
      match rest with
      | c1 :: c2 :: c3 :: r =>
        (0x80 ≤ c1 && c1 ≤ 0x8F) && utf8Cont c2 && utf8Cont c3 && utf8Valid r
      | _ => false
    else false

/-- frame.py `FrameError`: one constructor per distinct failure message
raised by `HootFrame.from_frames_with_identity`. -/
inductive FrameError
  | invalidProtocol
  | missingFrame (got : Nat)
  | commandTooShort (got : Nat)
  | invalidCommand (val : Nat)
  | contentTypeTooShort (got : Nat)
  | invalidContentType (val : Nat)
  | requestIdTooShort (got : Nat)
  | invalidServiceUtf8
  | invalidTraceparentUtf8
deriving DecidableEq, Repr

/-- frame.py `HootFrame` minus the transient `identity` attribute (the parse
entry point returns identity separately; serialization ignores it).
`service` and `traceparent` hold the UTF-8 encodings of the Python strings. -/
structure HootFrame where
  command : Command
  contentType : ContentType
  requestId : Bytes
  service : Bytes
  traceparent : Bytes
  body : Bytes
deriving DecidableEq, Repr

/-- `struct.pack(">H", n)` for `n < 65536`. -/
def packU16 (n : Nat) : Bytes := [n / 256 % 256, n % 256]

/-- `struct.unpack(">H", b[:2])[0]`: big-endian u16 from the first two bytes. -/
def unpackU16 (b : Bytes) : Nat := b.getD 0 0 * 256 + b.getD 1 0

/-- `HootFrame.to_frames`: the 7-part multipart message. `uuid.UUID.bytes`
is the identity on the stored 16 bytes, and `str.encode("utf-8")` is the
identity in our bytes-level representation of strings. -/
def HootFrame.toFrames (f : HootFrame) : List Bytes :=
  [protocolVersion,
   packU16 f.command.code,
   packU16 f.contentType.code,
   f.requestId,
   f.service,
   f.traceparent,
   f.body]

/-- The field-parsing half of `HootFrame.from_frames_with_identity`, applied
to the sub-list starting at the protocol marker.  `uuid.UUID(bytes=b)` with
`b` of length exactly 16 never raises, so the slice `[:16]` is stored
directly. -/
def parseHoot (hoot : List Bytes) : Except FrameError HootFrame :=
  if hoot.length < frameCount then .error (.missingFrame hoot.length)
  else
    let cmdF := hoot.getD 1 []
    if cmdF.length < 2 then .error (.commandTooShort cmdF.length)
    else
      match Command.ofCode? (unpackU16 cmdF) with
      | none => .error (.invalidCommand (unpackU16 cmdF))
      | some cmd =>
        let ctF := hoot.getD 2 []
        if ctF.length < 2 then .error (.contentTypeTooShort ctF.length)
        else
          match ContentType.ofCode? (unpackU16 ctF) with
          | none => .error (.invalidContentType (unpackU16 ctF))
          | some ct =>
            let ridF := hoot.getD 3 []
            if ridF.length < 16 then .error (.requestIdTooShort ridF.length)
            else if utf8Valid (hoot.getD 4 []) = false then .error .invalidServiceUtf8
            else if utf8Valid (hoot.getD 5 []) = false then .error .invalidTraceparentUtf8
            else .ok
              { command := cmd
                contentType := ct
                requestId := ridF.take 16
                service := hoot.getD 4 []
                traceparent := hoot.getD 5 []
                body := hoot.getD 6 [] }

/-- `HootFrame.from_frames_with_identity`: scan for the marker, split off
the identity prefix (reported as `none` when empty, as in the Python
`None`), then parse the remaining parts. -/
def fromFramesWithIdentity (frames : List Bytes) :
    Except FrameError (Option (List Bytes) × HootFrame) :=
  let i := frames.findIdx (· = protocolVersion)
  if i < frames.length then
    match parseHoot (frames.drop i) with
    | .error e => .error e
    | .ok f => .ok ((if i = 0 then none else some (frames.take i)), f)
  else .error .invalidProtocol

/-- The part-list from the protocol marker onward (`hoot_frames = frames[proto_idx:]`
in frame.py); equal to `frames` dropped up to the first marker part. -/
def markerTail (frames : List Bytes) : List Bytes :=
  frames.drop (frames.findIdx (· = protocolVersion))

/-! ## Error taxonomy (errors.py) -/

/-- errors.py `ErrorCategory`. -/
inductive ErrorCategory
  | validation
  | notFound
  | service
  | internal
  | cancelled
  | timeout
  | permission
deriving DecidableEq, Repr

/-- The wire string of a category (`ErrorCategory(...).value`). -/
def ErrorCategory.value : ErrorCategory → String
  | .validation => "validation"
  | .notFound => "not_found"
  | .service => "service"
  | .internal => "internal"
  | .cancelled => "cancelled"
  | .timeout => "timeout"
  | .permission => "permission"

/-- `ErrorCategory(s)`: enum lookup by value, `none` for the `ValueError`. -/
def ErrorCategory.ofValue? : String → Option ErrorCategory
  | "validation" => some .validation
  | "not_found" => some .notFound
  | "service" => some .service
  | "internal" => some .internal
  | "cancelled" => some .cancelled
  | "timeout" => some .timeout
  | "permission" => some .permission
  | _ => none

/-- A value stored in an error's `details` dict (strings, ints and bools are
the only value shapes errors.py ever stores there). -/
inductive DVal
  | str (s : String)
  | int (n : Int)
  | bool (b : Bool)
deriving DecidableEq, Repr

/-- A Python dict modelled as an ordered association list. -/
abbrev Details := List (String × DVal)

/-- Python `d[k] = v`: replace in place when the key exists, else append. -/
def setKey (d : Details) (k : String) (v : DVal) : Details :=
  if d.any (fun p => p.1 = k) then
    d.map (fun p => if p.1 = k then (k, v) else p)
  else d ++ [(k, v)]

/-- The data shared by every `ToolError` dataclass: `category`, `message`
and the `details` dict (the subtype-specific dataclass fields only exist
until `__post_init__` flattens them into `details`). -/
structure ToolErrorData where
  category : ErrorCategory
  message : String
  details : Details
deriving DecidableEq, Repr

/-- Python string truthiness of an optional-string field (`None` and `""`
are both falsy). -/
def truthyStr : Option String → Bool
  | none => false
  | some s => s ≠ ""

/-- errors.py `ValidationError.__post_init__`: flatten `field_name` (when
truthy) and `code` (when different from its default) into `details`. -/
def mkValidationError (message : String) (details : Details)
    (fieldName : Option String) (code : String) : ToolErrorData :=
  let d := if truthyStr fieldName then setKey details "field" (.str (fieldName.getD "")) else details
  let d := if code ≠ "invalid_input" then setKey d "code" (.str code) else d
  { category := .validation, message := message, details := d }

/-- errors.py `NotFoundError.__post_init__`. -/
def mkNotFoundError (message : String) (details : Details)
    (resourceType resourceId : String) : ToolErrorData :=
  let d := if resourceType ≠ "" then setKey details "resource_type" (.str resourceType) else details
  let d := if resourceId ≠ "" then setKey d "resource_id" (.str resourceId) else d
  { category := .notFound, message := message, details := d }

/-- errors.py `ServiceError.__post_init__`: `service` and `code` only when
truthy, `retryable` unconditionally. -/
def mkServiceError (message : String) (details : Details)
    (serviceName code : String) (retryable : Bool) : ToolErrorData :=
  let d := if serviceName ≠ "" then setKey details "service" (.str serviceName) else details
  let d := if code ≠ "" then setKey d "code" (.str code) else d
  let d := setKey d "retryable" (.bool retryable)
  { category := .service, message := message, details := d }

/-- errors.py `InternalError` (no `__post_init__`). -/
def mkInternalError (message : String) (details : Details) : ToolErrorData :=
  { category := .internal, message := message, details := details }

/-- errors.py `CancelledError.__post_init__`. -/
def mkCancelledError (message : String) (details : Details)
    (jobId : Option String) : ToolErrorData :=
  let d := if truthyStr jobId then setKey details "job_id" (.str (jobId.getD "")) else details
  { category := .cancelled, message := message, details := d }

/-- errors.py `TimeoutError.__post_init__` (`if self.timeout_ms:` is false
for both `None` and `0`). -/
def mkTimeoutError (message : String) (details : Details)
    (timeoutMs : Option Nat) : ToolErrorData :=
  let d := match timeoutMs with
    | some t => if t ≠ 0 then setKey details "timeout_ms" (.int t) else details
    | none => details
  { category := .timeout, message := message, details := d }

/-- errors.py `PermissionError.__post_init__`. -/
def mkPermissionError (message : String) (details : Details)
    (resource action : Option String) : ToolErrorData :=
  let d := if truthyStr resource then setKey details "resource" (.str (resource.getD "")) else details
  let d := if truthyStr action then setKey d "action" (.str (action.getD "")) else d
  { category := .permission, message := message, details := d }

/-- errors.py `ToolError.to_dict`: the serialized mapping.  Python omits the
`"details"` key when the dict is empty; since `from_dict` defaults a missing
key to `{}`, an empty list models the omitted key faithfully. -/
structure SerializedError where
  category : String
  message : String
  details : Details
deriving DecidableEq, Repr

/-- `ToolError.to_dict`. -/
def toolErrorToDict (e : ToolErrorData) : SerializedError :=
  { category := e.category.value, message := e.message, details := e.details }

/-- `ToolError.from_dict`: pick the subclass by category and construct it
with default subtype fields, which re-runs that subclass's
`__post_init__` on the transported `details`.  `none` models the
`ValueError` from an unrecognized category string. -/
def toolErrorFromDict (d : SerializedError) : Option ToolErrorData :=
  match ErrorCategory.ofValue? d.category with
  | none => none
  | some c =>
    some <| match c with
      | .validation => mkValidationError d.message d.details none "invalid_input"
      | .notFound => mkNotFoundError d.message d.details "" ""
      | .service => mkServiceError d.message d.details "" "" false
      | .internal => mkInternalError d.message d.details
      | .cancelled => mkCancelledError d.message d.details none
      | .timeout => mkTimeoutError d.message d.details none
      | .permission => mkPermissionError d.message d.details none none

/-! ## Casing transforms (protocol.py) -/

/-- `str.title()` restricted to ASCII, as used on snake_case name
components: a cased (alphabetic) character is upper-cased when it follows a
non-cased character and lower-cased otherwise. -/
def pyTitleGo : Bool → List Char → List Char
  | _, [] => []
  | prevCased, c :: rest =>
    if c.isAlpha then
      (if prevCased then c.toLower else c.toUpper) :: pyTitleGo true rest
    else c :: pyTitleGo false rest

/-- Python `s.title()` (ASCII fragment). -/
def pyTitle (cs : List Char) : List Char := pyTitleGo false cs

/-- Python `s.split("_")` on the character list. -/
def splitOnUnderscore : List Char → List (List Char)
  | [] => [[]]
  | c :: rest =>
    let r := splitOnUnderscore rest
    if c = '_' then [] :: r
    else
      match r with
      | h :: t => (c :: h) :: t
      | [] => [[c]]

/-- protocol.py `_to_camel_case`:
`components[0] + "".join(x.title() for x in components[1:])`. -/
def toCamelCase (s : String) : String :=
  match splitOnUnderscore s.data with
  | [] => ""
  | h :: t => String.mk (h ++ (t.map pyTitle).flatten)

/-- The character expansion of `re.sub(r"(?<!^)(?=[A-Z])", "_", name).lower()`
for all characters after the first: an underscore is inserted before every
upper-case character, and everything is lower-cased. -/
def snakeGo : List Char → List Char
  | [] => []
  | c :: rest => (if c.isUpper then ['_', c.toLower] else [c.toLower]) ++ snakeGo rest

/-- protocol.py `_to_snake_case`: the `(?<!^)` look-behind exempts the very
first character from the underscore insertion. -/
def toSnakeCase (s : String) : String :=
  match s.data with
  | [] => ""
  | c :: rest => String.mk (c.toLower :: snakeGo rest)

/-- Every snake_case tool and response name that appears on the wire in this
repository: the `TOOLS` lists and `RESPONSE_TYPES` values of the Python
services, the registry in hooteproto/tools.py, and the
`tool_name + "_response"` forms produced by `ModelService._send_response`. -/
def wireNames : List String :=
  ["clap_analyze", "audioldm2_generate", "demucs_separate", "musicgen_generate",
   "midi_classify_voices", "yue_generate", "beatthis_analyze",
   "anticipatory_generate", "anticipatory_continue", "anticipatory_embed",
   "orpheus_generate", "orpheus_generate_seeded", "orpheus_continue",
   "orpheus_bridge", "orpheus_loops", "orpheus_classify",
   "orpheus_generated", "orpheus_classified",
   "orpheus_generate_response", "orpheus_generate_seeded_response",
   "orpheus_continue_response", "orpheus_bridge_response",
   "orpheus_loops_response", "orpheus_classify_response",
   "rave_encode", "rave_decode", "rave_reconstruct", "rave_generate",
   "rave_stream_start", "rave_stream_stop", "rave_stream_status",
   "rave_encoded", "rave_decoded", "rave_reconstructed", "rave_generated",
   "rave_stream_started", "rave_stream_stopped",
   "rave_encode_response", "rave_decode_response", "rave_reconstruct_response",
   "rave_generate_response", "rave_stream_start_response",
   "rave_stream_stop_response", "rave_stream_status_response",
   "beats_analyzed", "audio_generated", "anticipatory_generated",
   "anticipatory_embedded", "midi_voices_classified", "demucs_separated",
   "audioldm2_generated", "clap_analyzed",
   "cas_store", "cas_inspect", "cas_get", "cas_upload_file",
   "artifact_get", "artifact_list", "artifact_upload",
   "abc_parse", "abc_to_midi", "abc_transpose", "abc_validate",
   "add_annotation", "convert_midi_to_wav",
   "garden_create_region", "garden_delete_region", "garden_emergency_pause",
   "garden_get_regions", "garden_move_region", "garden_pause", "garden_play",
   "garden_query", "garden_seek", "garden_set_tempo", "garden_status",
   "garden_stop", "graph_bind", "graph_connect", "graph_context",
   "graph_find", "graph_query", "graph_tag", "job_cancel", "job_list",
   "job_poll", "job_sleep", "job_status", "soundfont_inspect",
   "soundfont_preset_inspect", "clap_analyze_response",
   "audioldm2_generate_response", "demucs_separate_response",
   "musicgen_generate_response", "midi_classify_voices_response",
   "yue_generate_response", "beatthis_analyze_response",
   "anticipatory_generate_response", "anticipatory_continue_response",
   "anticipatory_embed_response", "echo", "echo_response"]

/-! ## Envelope codec (protocol.py) -/

/-- `int.from_bytes(bs, "little")`. -/
def leBytesToNat (bs : Bytes) : Nat := bs.foldr (fun b acc => acc * 256 + b) 0

/-- The Cap'n Proto `Id` struct of envelope.capnp: two little-endian 64-bit
halves of the request UUID. -/
structure EnvelopeId where
  low : Nat
  high : Nat
deriving DecidableEq, Repr

/-- Modelled from the spec: the tagged-union payload of an `Envelope`
(envelope.capnp is not part of the sources; §4.2/§6 of the spec describe the
payload as `one_of{tool_request, tool_response, error{code,message},
simple-signal}`, with the error variant carrying exactly code and message).
`κ` stands for the encoded fields of a request/response variant. -/
inductive EnvPayload (κ : Type)
  | toolRequest (variant : String) (fields : κ)
  | toolResponse (variant : String) (fields : κ)
  | error (code message : String)
  | simple (variant : String)
deriving DecidableEq, Repr

/-- Modelled from the spec: the envelope `{id, trace, payload}` (§3).  The
Cap'n Proto byte serialization itself is external (the capnp library); it is
modelled as the identity on this structured value. -/
structure Envelope (κ : Type) where
  id : EnvelopeId
  traceparent : String
  payload : EnvPayload κ
deriving DecidableEq, Repr

/-- protocol.py `encode_error_response`: id halves from the request-id
bytes, empty traceparent, and an error payload holding exactly the code and
message strings. -/
def encodeErrorResponse (κ : Type) (requestIdBytes : Bytes) (code message : String) :
    Envelope κ :=
  { id := { low := leBytesToNat (requestIdBytes.take 8)
            high := leBytesToNat ((requestIdBytes.drop 8).take 8) }
    traceparent := ""
    payload := .error code message }

/-- protocol.py `_decode_envelope_inner`, with `fieldsToDict` standing for
`_capnp_struct_to_dict`: the error variant decodes to the dict
`{"code": ..., "message": ...}` and nothing else. -/
def decodeEnvelopeInner (κ : Type) (fieldsToDict : κ → Details) (msg : Envelope κ) :
    String × Details :=
  match msg.payload with
  | .toolRequest variant fields => (toSnakeCase variant, fieldsToDict fields)
  | .toolResponse variant fields => (toSnakeCase variant, fieldsToDict fields)
  | .error code message => ("error", [("code", .str code), ("message", .str message)])
  | .simple variant => (toSnakeCase variant, [])

/-- protocol.py `decode_envelope` = `from_bytes` (modelled as the identity)
followed by `_decode_envelope_inner`. -/
def decodeEnvelope (κ : Type) (fieldsToDict : κ → Details) (body : Envelope κ) :
    String × Details :=
  decodeEnvelopeInner κ fieldsToDict body

/-! ## Service dispatch (service.py) -/

/-- The `ServiceError` raised by `SingleJobGuard.acquire_or_raise` when the
guard is already held (service.py lines 70-76). -/
def guardBusyError : ToolErrorData :=
  mkServiceError "Service is busy processing another request" [] "" "service_busy" true

/-- `SingleJobGuard.try_acquire` on the guard's `_busy` state: returns
(result, new state) without ever blocking. -/
def tryAcquire (busy : Bool) : Bool × Bool :=
  if busy then (false, busy) else (true, true)

/-- `SingleJobGuard.release`. -/
def guardRelease (_busy : Bool) : Bool := false

/-- The reply emitted by `ModelService._handle_request`: either
`_send_response` (a `tool_response` envelope) or `_send_error` (an error
envelope with code and message). `ρ` is the handler's response-dict type. -/
inductive DispatchReply (ρ : Type)
  | response (responseType : String) (data : ρ)
  | error (code message : String)
deriving DecidableEq, Repr

/-- The outcome of awaiting the external `handle_request` hook: a response
dict, a raised `ToolError` (category + message), or any other raised
exception (carried as its `str(e)` form). -/
inductive HandlerOutcome (ρ : Type)
  | success (response : ρ)
  | toolError (category : ErrorCategory) (message : String)
  | raised (message : String)
deriving DecidableEq, Repr

/-- `ModelService._handle_request` as a pure function of its inputs: the
request frame's content type, the result of `decode_tool_request` on the
body, the service's `TOOLS` list, the job guard's `_busy` state, and the
handler outcome (consulted only when the handler actually runs).  Returns
the reply sent and the guard state after the dispatch completes (the
`finally` in `acquire_or_raise` releases the guard on every path where it
was acquired, including raised exceptions). -/
def handleRequest (π ρ : Type) (contentType : ContentType)
    (decoded : Except String (String × π)) (tools : List String)
    (busy : Bool) (handler : HandlerOutcome ρ) : DispatchReply ρ × Bool :=
  if contentType ≠ ContentType.capnproto then
    (.error "invalid_content_type" ("Expected CapnProto, got " ++ contentType.enumName),
     busy)
  else
    match decoded with
    | .error e => (.error "decode_error" e, busy)
    | .ok (toolName, _params) =>
      if toolName ∉ tools then
        (.error "unknown_tool" ("Unknown tool: " ++ toolName), busy)
      else
        let acq := tryAcquire busy
        if acq.1 then
          match handler with
          | .success resp =>
            (.response (toolName ++ "_response") resp, guardRelease acq.2)
          | .toolError c m => (.error c.value m, guardRelease acq.2)
          | .raised m => (.error "internal_error" m, guardRelease acq.2)
        else
          (.error guardBusyError.category.value guardBusyError.message, acq.2)

/-! ## Client retry loop (client.py) -/

/-- client.py `ClientConfig` (the fields the retry loop reads). -/
structure ClientConfig where
  name : String
  timeoutMs : Nat
  maxRetries : Nat
  reconnectIvlMs : Nat
  reconnectIvlMaxMs : Nat
deriving DecidableEq, Repr

/-- The `TimeoutError` raised after the retry budget is exhausted
(errors.py `TimeoutError`: message plus `timeout_ms`). -/
structure TimeoutErrorInfo where
  message : String
  timeoutMs : Nat
deriving DecidableEq, Repr

/-- Observable trace of one `HootClient.request` call against a peer that
never replies: the request id used by each send attempt (ids abstracted to
a fresh counter, since `HootFrame.request` draws a fresh `uuid4` on every
attempt), the argument of each `asyncio.sleep`, and the final exception.
Delays are kept on the millisecond scale: Python converts once to seconds
(`/ 1000.0`), and doubling and `min` are exact on floats, so the sequence
of float delays is exactly this sequence divided by 1000. -/
structure LazyPirateRun where
  requestIds : List Nat
  sleepsMs : List Nat
  failure : TimeoutErrorInfo
deriving DecidableEq, Repr

/-- The retry loop of `HootClient.request` specialised to the case where
every `_request_once` raises `asyncio.TimeoutError`, i.e. the peer never
replies.  Mirrors `for attempt in range(max_retries + 1)`: the first
argument is the number of retries still available after this attempt. -/
def lazyGo (cfg : ClientConfig) : Nat → Nat → Nat → LazyPirateRun
  | 0, nid, _delay =>
    { requestIds := [nid]
      sleepsMs := []
      failure :=
        { message := "Request to " ++ cfg.name ++ " timed out after " ++
            toString (cfg.maxRetries + 1) ++ " attempts"
          timeoutMs := cfg.timeoutMs } }
  | r + 1, nid, delay =>
    let rest := lazyGo cfg r (nid + 1) (min (2 * delay) cfg.reconnectIvlMaxMs)
    { requestIds := nid :: rest.requestIds
      sleepsMs := delay :: rest.sleepsMs
      failure := rest.failure }

/-- `HootClient.request(tool, params)` against a peer that never replies,
with no per-call timeout override (`timeout = self.config.timeout_ms`);
`retry_delay` starts at `reconnect_ivl_ms`. -/
def lazyPirateNeverReply (cfg : ClientConfig) : LazyPirateRun :=
  lazyGo cfg cfg.maxRetries 0 cfg.reconnectIvlMs

/-! ## Cap'n Proto struct building (protocol.py `_dict_to_capnp_struct`) -/

/-- Modelled from the spec: the field types a Cap'n Proto struct schema can
declare (the .capnp schema files are not part of the sources; §4.2 describes
nested field values as numbers, strings, byte blobs, lists and nested
structures). -/
inductive CapType
  | text
  | intT
  | dataT
  | boolT
  | structT (fields : List (String × CapType))
  | listOf (elem : CapType)

/-- A Python value passed in a params dict to `_dict_to_capnp_struct`. -/
inductive PyVal
  | none
  | str (s : String)
  | int (n : Int)
  | bool (b : Bool)
  | bytes (bs : Bytes)
  | list (xs : List PyVal)
  | dict (fields : List (String × PyVal))

/-- Field lookup in a struct schema. -/
def lookupField (schema : List (String × CapType)) (k : String) : Option CapType :=
  (schema.find? (fun p => p.1 = k)).map (fun p => p.2)

mutual

/-- Whether capnp `setattr` accepts a (non-dict) Python value for a field of
the given type; a mismatch raises `KjException`, which the source catches. -/
def primCompat : CapType → PyVal → Bool
  | .text, .str _ => true
  | .intT, .int _ => true
  | .dataT, .bytes _ => true
  | .boolT, .bool _ => true
  | .listOf t, .list xs => primCompatList t xs
  | _, _ => false

def primCompatList : CapType → List PyVal → Bool
  | _, [] => true
  | t, x :: xs => primCompat t x && primCompatList t xs

end

/-- The plain `setattr` path of `_dict_to_capnp_struct`: succeeds only when
the schema declares the field and the value's type fits; otherwise the
raised exception is caught and the entry is skipped. -/
def encodePrimEntry (schema : List (String × CapType)) (camelKey : String)
    (v : PyVal) : List (String × PyVal) :=
  match lookupField schema camelKey with
  | some t => if primCompat t v then [(camelKey, v)] else []
  | none => []

mutual

/-- protocol.py `_dict_to_capnp_struct`: walk the dict in order and set each
field on the builder; `None` values are skipped, and any
`AttributeError`/`KjException` (unknown field, wrong value type, non-struct
target of a nested dict, non-dict item in a struct list) silently skips that
entry.  The result is the list of fields actually set; the function is
total and returns no error indication of any kind. -/
def encodeFields (schema : List (String × CapType)) :
    List (String × PyVal) → List (String × PyVal)
  | [] => []
  | (key, value) :: rest =>
    encodeEntry schema (toCamelCase key) value ++ encodeFields schema rest
termination_by l => (sizeOf l, 0)

/-- One `for key, value in data.items()` iteration of
`_dict_to_capnp_struct` (the body of its `try`). -/
def encodeEntry (schema : List (String × CapType)) (camelKey : String) :
    PyVal → List (String × PyVal)
  | .none => []
  | .dict d =>
    match lookupField schema camelKey with
    | some (.structT fs) => [(camelKey, .dict (encodeFields fs d))]
    | _ => []
  | .list xs => encodeListEntry schema camelKey xs
  | .str s => encodePrimEntry schema camelKey (.str s)
  | .int n => encodePrimEntry schema camelKey (.int n)
  | .bool b => encodePrimEntry schema camelKey (.bool b)
  | .bytes bs => encodePrimEntry schema camelKey (.bytes bs)
termination_by v => (sizeOf v, 2)

/-- The list branch of `_dict_to_capnp_struct`: a non-empty list whose first
item is a dict takes the list-of-structs path (`builder.init(key, len)`);
everything else is a plain `setattr`. -/
def encodeListEntry (schema : List (String × CapType)) (camelKey : String) :
    List PyVal → List (String × PyVal)
  | [] => encodePrimEntry schema camelKey (.list [])
  | x :: xs =>
    match x with
    | PyVal.dict d0 =>
      match lookupField schema camelKey with
      | some (.listOf (.structT fs)) =>
        match encodeStructItems fs (PyVal.dict d0 :: xs) with
        | some items => [(camelKey, .list items)]
        | Option.none => []
      | _ => []
    | _ => encodePrimEntry schema camelKey (.list (x :: xs))
termination_by xs => (sizeOf xs, 1)

/-- The items of a list-of-structs field; `none` when some item is not a
dict (its `.items()` raises `AttributeError`, aborting the whole entry). -/
def encodeStructItems (fs : List (String × CapType)) :
    List PyVal → Option (List PyVal)
  | [] => some []
  | x :: rest =>
    match x with
    | PyVal.dict d =>
      (encodeStructItems fs rest).map (fun r => PyVal.dict (encodeFields fs d) :: r)
    | _ => none
termination_by l => (sizeOf l, 0)

end

/-- A plain (non-collection) Python value. -/
def isPrimVal : PyVal → Bool
  | .str _ => true
  | .int _ => true
  | .bool _ => true
  | .bytes _ => true
  | _ => false

/-- A sample frame used by concrete witnesses: a CAPNPROTO request with a
16-byte request id, service name `"ab"`, empty traceparent and a 3-byte
body. -/
def F0 : HootFrame :=
  { command := .request
    contentType := .capnproto
    requestId := List.replicate 16 7
    service := [97, 98]
    traceparent := []
    body := [1, 2, 3] }

end Hoot

namespace Hoot

/-! ## Frame codec theorems -/

lemma frame_roundtrip_aux (F : HootFrame)
    (h16 : F.requestId.length = 16)
    (hs : utf8Valid F.service = true)
    (ht : utf8Valid F.traceparent = true) :
    fromFramesWithIdentity F.toFrames = .ok (none, F) := by
  cases F with
  | mk cmd ct rid svc tr body =>
    simp only [HootFrame.toFrames, fromFramesWithIdentity, parseHoot] at *
    simp only [List.findIdx, List.findIdx.go]
    simp [frameCount, List.getD, hs, ht, h16, List.take_of_length_le, le_refl]
    cases cmd <;> cases ct <;>
      simp [Command.code, ContentType.code, Command.ofCode?, ContentType.ofCode?,
        packU16, unpackU16, List.getD, h16, List.take_of_length_le]

/-- C1: for every valid frame (any command × content-type combination, a
16-byte request id, UTF-8 service and trace — including empty trace and
empty body), parsing the serialized 7-part message with no identity prefix
returns the frame unchanged in all fields. -/
theorem frame_roundtrip (F : HootFrame)
    (h16 : F.requestId.length = 16)
    (hs : utf8Valid F.service = true)
    (ht : utf8Valid F.traceparent = true) :
    fromFramesWithIdentity F.toFrames = .ok (none, F) :=
  frame_roundtrip_aux F h16 hs ht

/-- Witness for C1: the round trip evaluated on the concrete frame `F0`. -/
theorem frame_roundtrip_witness :
    F0.requestId.length = 16 ∧ fromFramesWithIdentity F0.toFrames = .ok (none, F0) :=
  ⟨by decide, frame_roundtrip F0 (by decide) (by decide) (by decide)⟩

lemma fromFrames_cons (x : Bytes) (frames : List Bytes) (hx : x ≠ protocolVersion) :
    fromFramesWithIdentity (x :: frames) =
      (fromFramesWithIdentity frames).map
        (fun p => (some (x :: (p.1.getD [])), p.2)) := by
  simp only [fromFramesWithIdentity]
  rw [List.findIdx_cons]
  simp only [decide_eq_false hx, cond_false, List.length_cons,
    Nat.add_lt_add_iff_right, List.drop_succ_cons, List.take_succ_cons,
    Nat.succ_ne_zero, if_false]
  by_cases h : List.findIdx (fun y => decide (y = protocolVersion)) frames < frames.length
  · rw [if_pos h, if_pos h]
    cases hp : parseHoot (frames.drop (frames.findIdx (fun y => decide (y = protocolVersion)))) with
    | error e => simp [Except.map]
    | ok f =>
      simp only [Except.map]
      by_cases h0 : List.findIdx (fun y => decide (y = protocolVersion)) frames = 0
      · simp [h0]
      · simp [h0]
  · rw [if_neg h, if_neg h]
    simp [Except.map]

/-- C2 counterexample: an identity prefix whose single part equals the
6-byte protocol marker is mistaken for the start of the protocol, so the
parse fails (the real marker part is read as a command and rejected)
instead of returning the identity verbatim with the frame. -/
theorem frame_identity_marker_cex :
    fromFramesWithIdentity ([protocolVersion] ++ F0.toFrames)
      = .error (.invalidCommand 18511) := by rfl

/-- C2 amended: for every identity-prefix list none of whose parts equals
the protocol marker, parsing the prefix followed by the serialized frame
recovers the identity verbatim (the empty prefix is reported as `none`,
mirroring Python's `None`) together with the frame unchanged. -/
theorem frame_identity_roundtrip (idparts : List Bytes) (F : HootFrame)
    (hid : protocolVersion ∉ idparts)
    (h16 : F.requestId.length = 16)
    (hs : utf8Valid F.service = true)
    (ht : utf8Valid F.traceparent = true) :
    fromFramesWithIdentity (idparts ++ F.toFrames) =
      .ok ((if idparts.isEmpty then none else some idparts), F) := by
  induction idparts with
  | nil => simpa using frame_roundtrip_aux F h16 hs ht
  | cons x xs ih =>
    have hx : x ≠ protocolVersion := fun h => hid (h ▸ List.mem_cons_self _ _)
    have hxs : protocolVersion ∉ xs := fun h => hid (List.mem_cons_of_mem _ h)
    rw [List.cons_append, fromFrames_cons x _ hx, ih hxs]
    cases xs with
    | nil => simp [Except.map]
    | cons y ys => simp [Except.map]

/-- Witness for C2 (amended): a one-part identity prefix recovered verbatim. -/
theorem frame_identity_roundtrip_witness :
    fromFramesWithIdentity ([[5]] ++ F0.toFrames) = .ok (some [[5]], F0) := by
  have h := frame_identity_roundtrip [[5]] F0 (by decide) (by decide) (by decide) (by decide)
  simpa using h

lemma findIdx_marker_lt_iff (frames : List Bytes) :
    frames.findIdx (· = protocolVersion) < frames.length ↔ protocolVersion ∈ frames := by
  constructor
  · intro h
    have hp := @List.findIdx_getElem _ (fun y => decide (y = protocolVersion)) frames h
    have hm := List.getElem_mem h
    simp only [decide_eq_true_eq] at hp
    rwa [hp] at hm
  · intro h
    exact List.findIdx_lt_length_of_exists ⟨protocolVersion, h, by simp⟩

lemma fromFrames_of_mem (frames : List Bytes) (h : protocolVersion ∈ frames) :
    fromFramesWithIdentity frames =
      match parseHoot (frames.drop (frames.findIdx (· = protocolVersion))) with
      | .error e => .error e
      | .ok f => .ok ((if frames.findIdx (· = protocolVersion) = 0 then none
                       else some (frames.take (frames.findIdx (· = protocolVersion)))), f) := by
  rw [fromFramesWithIdentity]
  rw [if_pos ((findIdx_marker_lt_iff frames).mpr h)]

lemma fromFrames_of_not_mem (frames : List Bytes) (h : protocolVersion ∉ frames) :
    fromFramesWithIdentity frames = .error .invalidProtocol := by
  rw [fromFramesWithIdentity]
  rw [if_neg (fun hlt => h ((findIdx_marker_lt_iff frames).mp hlt))]


section ParseHootChar

variable (hoot : List Bytes)

lemma parseHoot_missing (h : hoot.length < 7) :
    parseHoot hoot = .error (.missingFrame hoot.length) := by
  simp only [parseHoot, frameCount]
  rw [if_pos h]

lemma parseHoot_cmdShort (h7 : 7 ≤ hoot.length) (hc : (hoot.getD 1 []).length < 2) :
    parseHoot hoot = .error (.commandTooShort (hoot.getD 1 []).length) := by
  simp only [parseHoot, frameCount]
  rw [if_neg (by omega), if_pos hc]

lemma parseHoot_cmdBad (h7 : 7 ≤ hoot.length) (hc : 2 ≤ (hoot.getD 1 []).length)
    (hb : Command.ofCode? (unpackU16 (hoot.getD 1 [])) = none) :
    parseHoot hoot = .error (.invalidCommand (unpackU16 (hoot.getD 1 []))) := by
  simp only [parseHoot, frameCount]
  rw [if_neg (by omega), if_neg (by omega), hb]

lemma parseHoot_ctShort (h7 : 7 ≤ hoot.length) (hc : 2 ≤ (hoot.getD 1 []).length)
    {cmd : Command} (hb : Command.ofCode? (unpackU16 (hoot.getD 1 [])) = some cmd)
    (hct : (hoot.getD 2 []).length < 2) :
    parseHoot hoot = .error (.contentTypeTooShort (hoot.getD 2 []).length) := by
  simp only [parseHoot, frameCount, hb]
  rw [if_neg (by omega), if_neg (by omega), if_pos hct]

lemma parseHoot_ctBad (h7 : 7 ≤ hoot.length) (hc : 2 ≤ (hoot.getD 1 []).length)
    {cmd : Command} (hb : Command.ofCode? (unpackU16 (hoot.getD 1 [])) = some cmd)
    (hct : 2 ≤ (hoot.getD 2 []).length)
    (hcb : ContentType.ofCode? (unpackU16 (hoot.getD 2 [])) = none) :
    parseHoot hoot = .error (.invalidContentType (unpackU16 (hoot.getD 2 []))) := by
  simp only [parseHoot, frameCount, hb, hcb]
  rw [if_neg (by omega), if_neg (by omega), if_neg (by omega)]

lemma parseHoot_ridShort (h7 : 7 ≤ hoot.length) (hc : 2 ≤ (hoot.getD 1 []).length)
    {cmd : Command} (hb : Command.ofCode? (unpackU16 (hoot.getD 1 [])) = some cmd)
    (hct : 2 ≤ (hoot.getD 2 []).length)
    {ct : ContentType} (hcb : ContentType.ofCode? (unpackU16 (hoot.getD 2 [])) = some ct)
    (hr : (hoot.getD 3 []).length < 16) :
    parseHoot hoot = .error (.requestIdTooShort (hoot.getD 3 []).length) := by
  simp only [parseHoot, frameCount, hb, hcb]
  rw [if_neg (by omega), if_neg (by omega), if_neg (by omega), if_pos hr]

lemma parseHoot_svcBad (h7 : 7 ≤ hoot.length) (hc : 2 ≤ (hoot.getD 1 []).length)
    {cmd : Command} (hb : Command.ofCode? (unpackU16 (hoot.getD 1 [])) = some cmd)
    (hct : 2 ≤ (hoot.getD 2 []).length)
    {ct : ContentType} (hcb : ContentType.ofCode? (unpackU16 (hoot.getD 2 [])) = some ct)
    (hr : 16 ≤ (hoot.getD 3 []).length)
    (hs : utf8Valid (hoot.getD 4 []) = false) :
    parseHoot hoot = .error .invalidServiceUtf8 := by
  simp only [parseHoot, frameCount, hb, hcb]
  rw [if_neg (by omega), if_neg (by omega), if_neg (by omega),
    if_neg (by omega), if_pos hs]

lemma parseHoot_traceBad (h7 : 7 ≤ hoot.length) (hc : 2 ≤ (hoot.getD 1 []).length)
    {cmd : Command} (hb : Command.ofCode? (unpackU16 (hoot.getD 1 [])) = some cmd)
    (hct : 2 ≤ (hoot.getD 2 []).length)
    {ct : ContentType} (hcb : ContentType.ofCode? (unpackU16 (hoot.getD 2 [])) = some ct)
    (hr : 16 ≤ (hoot.getD 3 []).length)
    (hs : utf8Valid (hoot.getD 4 []) = true)
    (htr : utf8Valid (hoot.getD 5 []) = false) :
    parseHoot hoot = .error .invalidTraceparentUtf8 := by
  simp only [parseHoot, frameCount, hb, hcb]
  rw [if_neg (by omega), if_neg (by omega), if_neg (by omega),
    if_neg (by omega), if_neg (by simp [List.getD] at hs ⊢; simp [hs]), if_pos htr]

lemma parseHoot_ok (h7 : 7 ≤ hoot.length) (hc : 2 ≤ (hoot.getD 1 []).length)
    {cmd : Command} (hb : Command.ofCode? (unpackU16 (hoot.getD 1 [])) = some cmd)
    (hct : 2 ≤ (hoot.getD 2 []).length)
    {ct : ContentType} (hcb : ContentType.ofCode? (unpackU16 (hoot.getD 2 [])) = some ct)
    (hr : 16 ≤ (hoot.getD 3 []).length)
    (hs : utf8Valid (hoot.getD 4 []) = true)
    (htr : utf8Valid (hoot.getD 5 []) = true) :
    parseHoot hoot = .ok
      { command := cmd
        contentType := ct
        requestId := (hoot.getD 3 []).take 16
        service := hoot.getD 4 []
        traceparent := hoot.getD 5 []
        body := hoot.getD 6 [] } := by
  simp only [parseHoot, frameCount, hb, hcb]
  rw [if_neg (by omega), if_neg (by omega), if_neg (by omega),
    if_neg (by omega), if_neg (by simp [List.getD] at hs ⊢; simp [hs]), if_neg (by simp [List.getD] at htr ⊢; simp [htr])]

lemma parseHoot_isOk_iff :
    (parseHoot hoot).isOk = true ↔
      (7 ≤ hoot.length ∧ 2 ≤ (hoot.getD 1 []).length ∧
       (Command.ofCode? (unpackU16 (hoot.getD 1 []))).isSome = true ∧
       2 ≤ (hoot.getD 2 []).length ∧
       (ContentType.ofCode? (unpackU16 (hoot.getD 2 []))).isSome = true ∧
       16 ≤ (hoot.getD 3 []).length ∧
       utf8Valid (hoot.getD 4 []) = true ∧
       utf8Valid (hoot.getD 5 []) = true) := by
  constructor
  · intro hok
    by_cases h7 : 7 ≤ hoot.length
    · by_cases hc : 2 ≤ (hoot.getD 1 []).length
      · cases hb : Command.ofCode? (unpackU16 (hoot.getD 1 [])) with
        | none => rw [parseHoot_cmdBad hoot h7 hc hb] at hok; simp [Except.isOk, Except.toBool] at hok
        | some cmd =>
          by_cases hct : 2 ≤ (hoot.getD 2 []).length
          · cases hcb : ContentType.ofCode? (unpackU16 (hoot.getD 2 [])) with
            | none => rw [parseHoot_ctBad hoot h7 hc hb hct hcb] at hok; simp [Except.isOk, Except.toBool] at hok
            | some ct =>
              by_cases hr : 16 ≤ (hoot.getD 3 []).length
              · by_cases hs : utf8Valid (hoot.getD 4 []) = true
                · by_cases htr : utf8Valid (hoot.getD 5 []) = true
                  · exact ⟨h7, hc, by simp [hb], hct, by simp [hcb], hr, hs, htr⟩
                  · rw [parseHoot_traceBad hoot h7 hc hb hct hcb hr hs
                      (by simpa using htr)] at hok
                    simp [Except.isOk, Except.toBool] at hok
                · rw [parseHoot_svcBad hoot h7 hc hb hct hcb hr (by simpa using hs)] at hok
                  simp [Except.isOk, Except.toBool] at hok
              · rw [parseHoot_ridShort hoot h7 hc hb hct hcb (by omega)] at hok
                simp [Except.isOk, Except.toBool] at hok
          · rw [parseHoot_ctShort hoot h7 hc hb (by omega)] at hok
            simp [Except.isOk, Except.toBool] at hok
      · rw [parseHoot_cmdShort hoot (by omega) (by omega)] at hok
        simp [Except.isOk, Except.toBool] at hok
    · rw [parseHoot_missing hoot (by omega)] at hok
      simp [Except.isOk, Except.toBool] at hok
  · rintro ⟨h7, hc, hb, hct, hcb, hr, hs, htr⟩
    rcases Option.isSome_iff_exists.mp hb with ⟨cmd, hb⟩
    rcases Option.isSome_iff_exists.mp hcb with ⟨ct, hcb⟩
    rw [parseHoot_ok hoot h7 hc hb hct hcb hr hs htr]
    simp [Except.isOk, Except.toBool]

end ParseHootChar

/-- C3 amended: `from_frames_with_identity` succeeds exactly when a marker
part is present, at least 7 parts follow it, the command and content-type
regions have at least 2 bytes and carry recognized codes, the request-id
region has at least 16 bytes (a longer region is silently truncated to its
first 16 bytes, so "not exactly 16 bytes" does not always fail), and the
service and trace regions are valid UTF-8; each failure raises the distinct,
field-identifying FrameError listed in the corresponding conjunct. -/
theorem frame_parse_error_characterization (frames : List Bytes) :
    ((fromFramesWithIdentity frames).isOk = true ↔
      (protocolVersion ∈ frames ∧
       7 ≤ (markerTail frames).length ∧
       2 ≤ ((markerTail frames).getD 1 []).length ∧
       (Command.ofCode? (unpackU16 ((markerTail frames).getD 1 []))).isSome = true ∧
       2 ≤ ((markerTail frames).getD 2 []).length ∧
       (ContentType.ofCode? (unpackU16 ((markerTail frames).getD 2 []))).isSome = true ∧
       16 ≤ ((markerTail frames).getD 3 []).length ∧
       utf8Valid ((markerTail frames).getD 4 []) = true ∧
       utf8Valid ((markerTail frames).getD 5 []) = true))
    ∧ (protocolVersion ∉ frames →
        fromFramesWithIdentity frames = .error .invalidProtocol)
    ∧ (protocolVersion ∈ frames → (markerTail frames).length < 7 →
        fromFramesWithIdentity frames = .error (.missingFrame (markerTail frames).length))
    ∧ (protocolVersion ∈ frames → 7 ≤ (markerTail frames).length →
        ((markerTail frames).getD 1 []).length < 2 →
        fromFramesWithIdentity frames =
          .error (.commandTooShort ((markerTail frames).getD 1 []).length))
    ∧ (protocolVersion ∈ frames → 7 ≤ (markerTail frames).length →
        2 ≤ ((markerTail frames).getD 1 []).length →
        Command.ofCode? (unpackU16 ((markerTail frames).getD 1 [])) = none →
        fromFramesWithIdentity frames =
          .error (.invalidCommand (unpackU16 ((markerTail frames).getD 1 []))))
    ∧ (protocolVersion ∈ frames → 7 ≤ (markerTail frames).length →
        2 ≤ ((markerTail frames).getD 1 []).length →
        (Command.ofCode? (unpackU16 ((markerTail frames).getD 1 []))).isSome = true →
        ((markerTail frames).getD 2 []).length < 2 →
        fromFramesWithIdentity frames =
          .error (.contentTypeTooShort ((markerTail frames).getD 2 []).length))
    ∧ (protocolVersion ∈ frames → 7 ≤ (markerTail frames).length →
        2 ≤ ((markerTail frames).getD 1 []).length →
        (Command.ofCode? (unpackU16 ((markerTail frames).getD 1 []))).isSome = true →
        2 ≤ ((markerTail frames).getD 2 []).length →
        ContentType.ofCode? (unpackU16 ((markerTail frames).getD 2 [])) = none →
        fromFramesWithIdentity frames =
          .error (.invalidContentType (unpackU16 ((markerTail frames).getD 2 []))))
    ∧ (protocolVersion ∈ frames → 7 ≤ (markerTail frames).length →
        2 ≤ ((markerTail frames).getD 1 []).length →
        (Command.ofCode? (unpackU16 ((markerTail frames).getD 1 []))).isSome = true →
        2 ≤ ((markerTail frames).getD 2 []).length →
        (ContentType.ofCode? (unpackU16 ((markerTail frames).getD 2 []))).isSome = true →
        ((markerTail frames).getD 3 []).length < 16 →
        fromFramesWithIdentity frames =
          .error (.requestIdTooShort ((markerTail frames).getD 3 []).length))
    ∧ (protocolVersion ∈ frames → 7 ≤ (markerTail frames).length →
        2 ≤ ((markerTail frames).getD 1 []).length →
        (Command.ofCode? (unpackU16 ((markerTail frames).getD 1 []))).isSome = true →
        2 ≤ ((markerTail frames).getD 2 []).length →
        (ContentType.ofCode? (unpackU16 ((markerTail frames).getD 2 []))).isSome = true →
        16 ≤ ((markerTail frames).getD 3 []).length →
        utf8Valid ((markerTail frames).getD 4 []) = false →
        fromFramesWithIdentity frames = .error .invalidServiceUtf8)
    ∧ (protocolVersion ∈ frames → 7 ≤ (markerTail frames).length →
        2 ≤ ((markerTail frames).getD 1 []).length →
        (Command.ofCode? (unpackU16 ((markerTail frames).getD 1 []))).isSome = true →
        2 ≤ ((markerTail frames).getD 2 []).length →
        (ContentType.ofCode? (unpackU16 ((markerTail frames).getD 2 []))).isSome = true →
        16 ≤ ((markerTail frames).getD 3 []).length →
        utf8Valid ((markerTail frames).getD 4 []) = true →
        utf8Valid ((markerTail frames).getD 5 []) = false →
        fromFramesWithIdentity frames = .error .invalidTraceparentUtf8) := by
  have hmt : markerTail frames = frames.drop (frames.findIdx (· = protocolVersion)) := rfl
  refine ⟨?_, fromFrames_of_not_mem frames, ?_, ?_, ?_, ?_, ?_, ?_, ?_, ?_⟩
  · constructor
    · intro hok
      by_cases hm : protocolVersion ∈ frames
      · rw [fromFrames_of_mem frames hm] at hok
        have : (parseHoot (markerTail frames)).isOk = true := by
          rw [hmt]
          cases hp : parseHoot (frames.drop (frames.findIdx (· = protocolVersion))) with
          | error e => rw [hp] at hok; simp [Except.isOk, Except.toBool] at hok
          | ok f => simp [Except.isOk, Except.toBool]
        exact ⟨hm, (parseHoot_isOk_iff (markerTail frames)).mp this⟩
      · rw [fromFrames_of_not_mem frames hm] at hok
        simp [Except.isOk, Except.toBool] at hok
    · rintro ⟨hm, hrest⟩
      rw [fromFrames_of_mem frames hm]
      have := (parseHoot_isOk_iff (markerTail frames)).mpr hrest
      rw [hmt] at this
      cases hp : parseHoot (frames.drop (frames.findIdx (· = protocolVersion))) with
      | error e => rw [hp] at this; simp [Except.isOk, Except.toBool] at this
      | ok f => simp [Except.isOk, Except.toBool]
  · intro hm h7
    rw [fromFrames_of_mem frames hm, ← hmt, parseHoot_missing _ (by omega)]
  · intro hm h7 hc
    rw [fromFrames_of_mem frames hm, ← hmt, parseHoot_cmdShort _ h7 hc]
  · intro hm h7 hc hb
    rw [fromFrames_of_mem frames hm, ← hmt, parseHoot_cmdBad _ h7 hc hb]
  · intro hm h7 hc hb hct
    rcases Option.isSome_iff_exists.mp hb with ⟨cmd, hb⟩
    rw [fromFrames_of_mem frames hm, ← hmt, parseHoot_ctShort _ h7 hc hb hct]
  · intro hm h7 hc hb hct hcb
    rcases Option.isSome_iff_exists.mp hb with ⟨cmd, hb⟩
    rw [fromFrames_of_mem frames hm, ← hmt, parseHoot_ctBad _ h7 hc hb hct hcb]
  · intro hm h7 hc hb hct hcb hr
    rcases Option.isSome_iff_exists.mp hb with ⟨cmd, hb⟩
    rcases Option.isSome_iff_exists.mp hcb with ⟨ct, hcb⟩
    rw [fromFrames_of_mem frames hm, ← hmt, parseHoot_ridShort _ h7 hc hb hct hcb hr]
  · intro hm h7 hc hb hct hcb hr hs
    rcases Option.isSome_iff_exists.mp hb with ⟨cmd, hb⟩
    rcases Option.isSome_iff_exists.mp hcb with ⟨ct, hcb⟩
    rw [fromFrames_of_mem frames hm, ← hmt, parseHoot_svcBad _ h7 hc hb hct hcb hr hs]
  · intro hm h7 hc hb hct hcb hr hs htr
    rcases Option.isSome_iff_exists.mp hb with ⟨cmd, hb⟩
    rcases Option.isSome_iff_exists.mp hcb with ⟨ct, hcb⟩
    rw [fromFrames_of_mem frames hm, ← hmt, parseHoot_traceBad _ h7 hc hb hct hcb hr hs htr]

/-- Witness for C3 (amended): the missing-marker case at the concrete empty
part list. -/
theorem frame_parse_error_characterization_witness :
    fromFramesWithIdentity [] = .error .invalidProtocol :=
  (frame_parse_error_characterization []).2.1 (by decide)

/-- C3 counterexample: a request-id region of 17 bytes is not "exactly 16
bytes", yet the parse succeeds, truncating the region to its first 16
bytes, instead of raising a FrameError. -/
theorem frame_reqid_17_cex :
    fromFramesWithIdentity
      [protocolVersion, [0, 2], [0, 1], List.replicate 16 9 ++ [5], [], [], []]
      = .ok (none,
          { command := .request
            contentType := .capnproto
            requestId := List.replicate 16 9
            service := []
            traceparent := []
            body := [] }) := by rfl

/-- C4: request dispatch checks its conditions in a fixed order and stops at
the first failure — invalid_content_type when the body is not CAPNPROTO,
decode_error when envelope decoding fails, unknown_tool when the tool is not
declared, the busy reply when the job guard is held; otherwise the handler
runs and its success/ToolError/other-exception outcome maps to the
response, the ToolError's category and message, or internal_error with the
exception's string form — and the guard's state after dispatch always equals
its state before (released in all cases, including exceptions). -/
theorem dispatch_order (π ρ : Type) (ct : ContentType)
    (decoded : Except String (String × π)) (tools : List String)
    (busy : Bool) (handler : HandlerOutcome ρ) :
    ((handleRequest π ρ ct decoded tools busy handler).2 = busy)
    ∧ (ct ≠ ContentType.capnproto →
        handleRequest π ρ ct decoded tools busy handler =
          (.error "invalid_content_type" ("Expected CapnProto, got " ++ ct.enumName), busy))
    ∧ (∀ e, ct = ContentType.capnproto → decoded = .error e →
        handleRequest π ρ ct decoded tools busy handler = (.error "decode_error" e, busy))
    ∧ (∀ t p, ct = ContentType.capnproto → decoded = .ok (t, p) → t ∉ tools →
        handleRequest π ρ ct decoded tools busy handler =
          (.error "unknown_tool" ("Unknown tool: " ++ t), busy))
    ∧ (∀ t p, ct = ContentType.capnproto → decoded = .ok (t, p) → t ∈ tools →
        busy = true →
        handleRequest π ρ ct decoded tools busy handler =
          (.error guardBusyError.category.value guardBusyError.message, true))
    ∧ (∀ t p r, ct = ContentType.capnproto → decoded = .ok (t, p) → t ∈ tools →
        busy = false → handler = .success r →
        handleRequest π ρ ct decoded tools busy handler =
          (.response (t ++ "_response") r, false))
    ∧ (∀ t p c m, ct = ContentType.capnproto → decoded = .ok (t, p) → t ∈ tools →
        busy = false → handler = .toolError c m →
        handleRequest π ρ ct decoded tools busy handler = (.error c.value m, false))
    ∧ (∀ t p m, ct = ContentType.capnproto → decoded = .ok (t, p) → t ∈ tools →
        busy = false → handler = .raised m →
        handleRequest π ρ ct decoded tools busy handler =
          (.error "internal_error" m, false)) := by
  refine ⟨?_, ?_, ?_, ?_, ?_, ?_, ?_, ?_⟩
  · -- guard net effect: final state equals initial state on every path
    by_cases hct : ct = ContentType.capnproto
    · subst hct
      cases decoded with
      | error e => simp [handleRequest]
      | ok tp =>
        obtain ⟨t, p⟩ := tp
        by_cases hmem : t ∈ tools
        · cases busy with
          | false => cases handler <;> simp [handleRequest, hmem, tryAcquire, guardRelease]
          | true => simp [handleRequest, hmem, tryAcquire]
        · simp [handleRequest, hmem]
    · simp [handleRequest, hct]
  · intro h; simp [handleRequest, h]
  · intro e h hd; subst h hd; simp [handleRequest]
  · intro t p h hd hmem; subst h hd; simp [handleRequest, hmem]
  · intro t p h hd hmem hb; subst h hd hb; simp [handleRequest, hmem, tryAcquire]
  · intro t p r h hd hmem hb hh; subst h hd hb hh
    simp [handleRequest, hmem, tryAcquire, guardRelease]
  · intro t p c m h hd hmem hb hh; subst h hd hb hh
    simp [handleRequest, hmem, tryAcquire, guardRelease]
  · intro t p m h hd hmem hb hh; subst h hd hb hh
    simp [handleRequest, hmem, tryAcquire, guardRelease]

/-- Witness for C4: the success path evaluated on a concrete request. -/
theorem dispatch_order_witness :
    handleRequest Unit Unit ContentType.capnproto (.ok ("echo", ())) ["echo"] false
      (.success ()) = (.response "echo_response" (), false) :=
  (dispatch_order Unit Unit ContentType.capnproto (.ok ("echo", ())) ["echo"] false
    (.success ())).2.2.2.2.2.1 "echo" () () rfl rfl (by decide) rfl rfl

/-- C5 counterexample: when the guard is held, the reply actually sent
carries the wire code "service" (the raised ServiceError's category value),
not "service_busy". -/
theorem service_busy_reply_cex :
    (handleRequest Unit Unit ContentType.capnproto (.ok ("echo", ())) ["echo"] true
        (.success ())).1
      = .error "service" "Service is busy processing another request"
    ∧ ("service" : String) ≠ "service_busy" := ⟨rfl, by decide⟩

/-- C5 amended: when the job guard is already held, a second request is
answered without waiting (`try_acquire` returns false rather than
blocking) via the ServiceError raised by the guard, whose category is
service, whose code field is "service_busy" and whose retryable flag is
true (both flattened into its details); the reply sent on the wire carries
the category value "service" as its code together with the busy message —
the "service_busy" code and the retryable flag do not cross the wire. -/
theorem service_busy_amended (π ρ : Type) (t : String) (p : π)
    (tools : List String) (handler : HandlerOutcome ρ) (hmem : t ∈ tools) :
    guardBusyError.category = .service
    ∧ ("code", DVal.str "service_busy") ∈ guardBusyError.details
    ∧ ("retryable", DVal.bool true) ∈ guardBusyError.details
    ∧ (tryAcquire true).1 = false
    ∧ handleRequest π ρ ContentType.capnproto (.ok (t, p)) tools true handler =
        (.error "service" "Service is busy processing another request", true) := by
  refine ⟨rfl, by decide, by decide, rfl, ?_⟩
  simp [handleRequest, hmem, tryAcquire, guardBusyError, mkServiceError, setKey,
    ErrorCategory.value]

/-- Witness for C5 (amended): the busy reply evaluated concretely. -/
theorem service_busy_amended_witness :
    handleRequest Unit Unit ContentType.capnproto (.ok ("echo", ())) ["echo"] true
      (.success ()) =
      (.error "service" "Service is busy processing another request", true) :=
  (service_busy_amended Unit Unit "echo" () ["echo"] (.success ()) (by decide)).2.2.2.2

lemma lazyGo_requestIds (cfg : ClientConfig) :
    ∀ r nid d, (lazyGo cfg r nid d).requestIds = List.range' nid (r + 1) := by
  intro r
  induction r with
  | zero => intro nid d; simp [lazyGo, List.range']
  | succ r ih =>
    intro nid d
    simp [lazyGo, ih, List.range']

lemma lazyGo_sleeps_length (cfg : ClientConfig) :
    ∀ r nid d, (lazyGo cfg r nid d).sleepsMs.length = r := by
  intro r
  induction r with
  | zero => intro nid d; simp [lazyGo]
  | succ r ih => intro nid d; simp [lazyGo, ih]

lemma lazyGo_failure (cfg : ClientConfig) :
    ∀ r nid d, (lazyGo cfg r nid d).failure =
      { message := "Request to " ++ cfg.name ++ " timed out after " ++
          toString (cfg.maxRetries + 1) ++ " attempts"
        timeoutMs := cfg.timeoutMs } := by
  intro r
  induction r with
  | zero => intro nid d; rfl
  | succ r ih => intro nid d; simp [lazyGo, ih]

lemma lazyGo_sleeps_head (cfg : ClientConfig) (r nid d : Nat) :
    (lazyGo cfg (r + 1) nid d).sleepsMs.getD 0 0 = d := rfl

lemma lazyGo_sleeps_rec (cfg : ClientConfig) :
    ∀ r nid d k, k + 1 < r →
      (lazyGo cfg r nid d).sleepsMs.getD (k + 1) 0 =
        min (2 * ((lazyGo cfg r nid d).sleepsMs.getD k 0)) cfg.reconnectIvlMaxMs := by
  intro r
  induction r with
  | zero => intro nid d k h; omega
  | succ r ih =>
    intro nid d k h
    cases k with
    | zero =>
      obtain ⟨s, rfl⟩ : ∃ s, r = s + 1 := ⟨r - 1, by omega⟩
      show (lazyGo cfg (s + 1) (nid + 1) (min (2 * d) cfg.reconnectIvlMaxMs)).sleepsMs.getD 0 0 = _
      rw [lazyGo_sleeps_head]
      rfl
    | succ k =>
      have h' : k + 1 < r := by omega
      show (lazyGo cfg r (nid + 1) (min (2 * d) cfg.reconnectIvlMaxMs)).sleepsMs.getD (k + 1) 0 = _
      rw [ih _ _ _ h']
      rfl

/-- C6: against a peer that never replies, a client configured with
max_retries = R makes exactly R+1 send attempts, each with a freshly
generated request id (pairwise distinct counter values), sleeps between
attempts for a backoff starting at the initial reconnect interval and
doubling each retry capped at the configured maximum, and finally raises a
TimeoutError carrying the configured timeout. -/
theorem lazy_pirate_never_reply (cfg : ClientConfig) :
    ((lazyPirateNeverReply cfg).requestIds.length = cfg.maxRetries + 1)
    ∧ ((lazyPirateNeverReply cfg).requestIds = List.range' 0 (cfg.maxRetries + 1))
    ∧ (lazyPirateNeverReply cfg).requestIds.Nodup
    ∧ ((lazyPirateNeverReply cfg).sleepsMs.length = cfg.maxRetries)
    ∧ (0 < cfg.maxRetries →
        (lazyPirateNeverReply cfg).sleepsMs.getD 0 0 = cfg.reconnectIvlMs)
    ∧ (∀ k, k + 1 < cfg.maxRetries →
        (lazyPirateNeverReply cfg).sleepsMs.getD (k + 1) 0 =
          min (2 * ((lazyPirateNeverReply cfg).sleepsMs.getD k 0))
            cfg.reconnectIvlMaxMs)
    ∧ ((lazyPirateNeverReply cfg).failure.timeoutMs = cfg.timeoutMs)
    ∧ ((lazyPirateNeverReply cfg).failure.message =
        "Request to " ++ cfg.name ++ " timed out after " ++
          toString (cfg.maxRetries + 1) ++ " attempts") := by
  unfold lazyPirateNeverReply
  refine ⟨?_, lazyGo_requestIds cfg _ _ _, ?_, lazyGo_sleeps_length cfg _ _ _, ?_, ?_, ?_, ?_⟩
  · rw [lazyGo_requestIds cfg]; simp
  · rw [lazyGo_requestIds cfg]; exact List.nodup_range' _ _
  · intro h
    obtain ⟨s, hs⟩ : ∃ s, cfg.maxRetries = s + 1 := ⟨cfg.maxRetries - 1, by omega⟩
    rw [hs, lazyGo_sleeps_head]
  · intro k hk
    exact lazyGo_sleeps_rec cfg _ _ _ k hk
  · rw [lazyGo_failure cfg]
  · rw [lazyGo_failure cfg]

/-- Witness for C6: a client with max_retries = 2 sleeps 1000 ms first. -/
theorem lazy_pirate_never_reply_witness :
    0 < (2 : Nat) ∧
    (lazyPirateNeverReply
        { name := "rave", timeoutMs := 30000, maxRetries := 2,
          reconnectIvlMs := 1000, reconnectIvlMaxMs := 60000 }).sleepsMs.getD 0 0 = 1000 :=
  ⟨by decide,
   (lazy_pirate_never_reply
      { name := "rave", timeoutMs := 30000, maxRetries := 2,
        reconnectIvlMs := 1000, reconnectIvlMaxMs := 60000 }).2.2.2.2.1 (by decide)⟩

/-- C7: decoding an encoded error envelope yields exactly the two-entry
mapping with the original code and message strings and no other keys. -/
theorem decode_encode_error_roundtrip (κ : Type) (fieldsToDict : κ → Details)
    (requestIdBytes : Bytes) (code message : String) :
    decodeEnvelope κ fieldsToDict (encodeErrorResponse κ requestIdBytes code message) =
      ("error", [("code", .str code), ("message", .str message)]) := rfl

lemma mem_setKey_self (d : Details) (k : String) (v : DVal) :
    (k, v) ∈ setKey d k v := by
  unfold setKey
  by_cases h : d.any (fun p => p.1 = k)
  · rw [if_pos h]
    rcases List.any_eq_true.mp h with ⟨p, hp, hpk⟩
    simp only [decide_eq_true_eq] at hpk
    exact List.mem_map.mpr ⟨p, hp, by simp [hpk]⟩
  · rw [if_neg h]
    exact List.mem_append_right _ (List.mem_singleton.mpr rfl)

lemma mem_setKey_of_ne (d : Details) (k : String) (v : DVal)
    (p : String × DVal) (hp : p ∈ d) (hne : p.1 ≠ k) : p ∈ setKey d k v := by
  unfold setKey
  by_cases h : d.any (fun q => q.1 = k)
  · rw [if_pos h]
    exact List.mem_map.mpr ⟨p, hp, by simp [hne]⟩
  · rw [if_neg h]
    exact List.mem_append_left _ hp

/-- C8 counterexample: a ServiceError with retryable = true flattens
`retryable: true` into details, but from_dict re-runs ServiceError's
post-init with the default retryable = false, overwriting the transported
entry — the round trip does not recover the flattened details mapping. -/
theorem toolerror_roundtrip_cex :
    toolErrorFromDict (toolErrorToDict (mkServiceError "m" [] "s" "c" true)) =
      some { category := .service, message := "m",
             details := [("service", .str "s"), ("code", .str "c"),
                         ("retryable", .bool false)] }
    ∧ (mkServiceError "m" [] "s" "c" true).details =
        [("service", .str "s"), ("code", .str "c"), ("retryable", .bool true)] :=
  ⟨rfl, rfl⟩

/-- C8 amended: every subtype's category-specific fields (field name,
resource type/id, service name + retryable + code, timeout_ms, job_id,
resource + action) are flattened into details before serialization, and
to_dict followed by from_dict recovers the same category, message and
flattened details for every category except service, where the retryable
entry is reset to false by the re-run post-init. -/
theorem toolerror_flatten_and_roundtrip :
    (∀ m d f c, f ≠ "" → ("field", DVal.str f) ∈ (mkValidationError m d (some f) c).details)
    ∧ (∀ m d rt ri, rt ≠ "" →
        ("resource_type", DVal.str rt) ∈ (mkNotFoundError m d rt ri).details)
    ∧ (∀ m d rt ri, ri ≠ "" →
        ("resource_id", DVal.str ri) ∈ (mkNotFoundError m d rt ri).details)
    ∧ (∀ m d s c r, s ≠ "" → ("service", DVal.str s) ∈ (mkServiceError m d s c r).details)
    ∧ (∀ m d s c r, c ≠ "" → ("code", DVal.str c) ∈ (mkServiceError m d s c r).details)
    ∧ (∀ m d s c r, ("retryable", DVal.bool r) ∈ (mkServiceError m d s c r).details)
    ∧ (∀ m d t, t ≠ 0 → ("timeout_ms", DVal.int t) ∈ (mkTimeoutError m d (some t)).details)
    ∧ (∀ m d j, j ≠ "" → ("job_id", DVal.str j) ∈ (mkCancelledError m d (some j)).details)
    ∧ (∀ m d rs a, rs ≠ "" →
        ("resource", DVal.str rs) ∈ (mkPermissionError m d (some rs) a).details)
    ∧ (∀ m d rs a, a ≠ "" →
        ("action", DVal.str a) ∈ (mkPermissionError m d rs (some a)).details)
    ∧ (∀ e : ToolErrorData,
        toolErrorFromDict (toolErrorToDict e) =
          some { category := e.category, message := e.message,
                 details := if e.category = .service
                   then setKey e.details "retryable" (.bool false)
                   else e.details }) := by
  refine ⟨?_, ?_, ?_, ?_, ?_, ?_, ?_, ?_, ?_, ?_, ?_⟩
  · intro m d f c hf
    have h1 : truthyStr (some f) = true := by simp [truthyStr, hf]
    simp only [mkValidationError, h1, if_true, Option.getD_some]
    by_cases hc : c = "invalid_input"
    · simp only [hc, ne_eq, not_true_eq_false, if_false]
      exact mem_setKey_self _ _ _
    · simp only [ne_eq, hc, not_false_eq_true, if_true]
      exact mem_setKey_of_ne _ "code" (DVal.str c) ("field", DVal.str f)
        (mem_setKey_self _ _ _) (by simp)
  · intro m d rt ri hrt
    simp only [mkNotFoundError, ne_eq, hrt, not_false_eq_true, if_true]
    by_cases hri : ri = ""
    · simp only [hri, not_true_eq_false, if_false]
      exact mem_setKey_self _ _ _
    · simp only [hri, not_false_eq_true, if_true]
      exact mem_setKey_of_ne _ "resource_id" (DVal.str ri) ("resource_type", DVal.str rt)
        (mem_setKey_self _ _ _) (by simp)
  · intro m d rt ri hri
    simp only [mkNotFoundError, ne_eq, hri, not_false_eq_true, if_true]
    exact mem_setKey_self _ _ _
  · intro m d s c r hs
    simp only [mkServiceError, ne_eq, hs, not_false_eq_true, if_true]
    refine mem_setKey_of_ne _ "retryable" (DVal.bool r) ("service", DVal.str s) ?_ (by simp)
    by_cases hc : c = ""
    · simp only [hc, not_true_eq_false, if_false]
      exact mem_setKey_self _ _ _
    · simp only [hc, not_false_eq_true, if_true]
      exact mem_setKey_of_ne _ "code" (DVal.str c) ("service", DVal.str s)
        (mem_setKey_self _ _ _) (by simp)
  · intro m d s c r hc
    simp only [mkServiceError, ne_eq, hc, not_false_eq_true, if_true]
    exact mem_setKey_of_ne _ "retryable" (DVal.bool r) ("code", DVal.str c)
      (mem_setKey_self _ _ _) (by simp)
  · intro m d s c r
    simp only [mkServiceError]
    exact mem_setKey_self _ _ _
  · intro m d t ht
    simp only [mkTimeoutError, ne_eq, ht, not_false_eq_true, if_true]
    exact mem_setKey_self _ _ _
  · intro m d j hj
    have h1 : truthyStr (some j) = true := by simp [truthyStr, hj]
    simp only [mkCancelledError, h1, if_true, Option.getD_some]
    exact mem_setKey_self _ _ _
  · intro m d rs a hrs
    have h1 : truthyStr (some rs) = true := by simp [truthyStr, hrs]
    simp only [mkPermissionError, h1, if_true, Option.getD_some]
    by_cases ha : truthyStr a = true
    · simp only [ha, if_true]
      exact mem_setKey_of_ne _ "action" (DVal.str (a.getD "")) ("resource", DVal.str rs)
        (mem_setKey_self _ _ _) (by simp)
    · simp only [ha, if_false]
      exact mem_setKey_self _ _ _
  · intro m d rs a ha
    have h1 : truthyStr (some a) = true := by simp [truthyStr, ha]
    simp only [mkPermissionError, h1, if_true, Option.getD_some]
    exact mem_setKey_self _ _ _
  · intro e
    cases e with
    | mk c m d =>
      cases c <;>
        simp [toolErrorToDict, toolErrorFromDict, ErrorCategory.value,
          ErrorCategory.ofValue?, mkValidationError, mkNotFoundError,
          mkServiceError, mkInternalError, mkCancelledError, mkTimeoutError,
          mkPermissionError, truthyStr]

/-- Witness for C8 (amended): a concrete flattened entry and a concrete
internal-error round trip. -/
theorem toolerror_flatten_and_roundtrip_witness :
    ("retryable", DVal.bool true) ∈ (mkServiceError "m" [] "s" "c" true).details ∧
    toolErrorFromDict (toolErrorToDict (mkInternalError "x" [])) =
      some { category := .internal, message := "x", details := [] } := by
  constructor
  · exact toolerror_flatten_and_roundtrip.2.2.2.2.2.1 "m" [] "s" "c" true
  · have h := toolerror_flatten_and_roundtrip.2.2.2.2.2.2.2.2.2.2 (mkInternalError "x" [])
    simpa [mkInternalError] using h

/-- C9: the casing transform pair used on encode (`_to_camel_case`) and
decode (`_to_snake_case`) is deterministic and reversible on every
snake_case tool and response name used on the wire: converting to the
camelCase wire variant and back recovers the name exactly. -/
theorem casing_roundtrip_wire_names :
    ∀ n ∈ wireNames, toSnakeCase (toCamelCase n) = n := by decide


lemma encodePrimEntry_mem (schema : List (String × CapType)) (camelKey : String)
    (v : PyVal) (k : String) (v' : PyVal)
    (h : (k, v') ∈ encodePrimEntry schema camelKey v) :
    k = camelKey ∧ v' = v ∧
      ∃ t, lookupField schema camelKey = some t ∧ primCompat t v = true := by
  rw [encodePrimEntry] at h
  split at h
  · split at h
    · simp only [List.mem_singleton, Prod.mk.injEq] at h
      rename_i t hl hc
      exact ⟨h.1, h.2, t, hl, hc⟩
    · simp at h
  · simp at h

lemma encodeEntry_key_mem (schema : List (String × CapType)) (camelKey : String)
    (v : PyVal) (k : String) (v' : PyVal)
    (h : (k, v') ∈ encodeEntry schema camelKey v) :
    k = camelKey ∧ ∃ t, lookupField schema camelKey = some t ∧
      (isPrimVal v' = true → primCompat t v' = true) := by
  have prim : ∀ w, (k, v') ∈ encodePrimEntry schema camelKey w →
      k = camelKey ∧ ∃ t, lookupField schema camelKey = some t ∧
        (isPrimVal v' = true → primCompat t v' = true) := by
    intro w hw
    obtain ⟨hk, hv, t, hl, hc⟩ := encodePrimEntry_mem schema camelKey w k v' hw
    exact ⟨hk, t, hl, fun _ => hv ▸ hc⟩
  cases v with
  | none => simp [encodeEntry] at h
  | dict d =>
    rw [encodeEntry] at h
    split at h
    · rename_i fs hl
      simp only [List.mem_singleton, Prod.mk.injEq] at h
      exact ⟨h.1, _, hl, by rw [h.2]; simp [isPrimVal]⟩
    · simp at h
  | list xs =>
    rw [encodeEntry] at h
    cases xs with
    | nil => exact prim _ (by rw [encodeListEntry] at h; exact h)
    | cons x rest =>
      cases x with
      | dict d0 =>
        rw [encodeListEntry] at h
        split at h
        · rename_i fs hl
          split at h
          · rename_i items hi
            simp only [List.mem_singleton, Prod.mk.injEq] at h
            exact ⟨h.1, _, hl, by rw [h.2]; simp [isPrimVal]⟩
          · simp at h
        · simp at h
      | none => simp only [encodeListEntry] at h; exact prim _ h
      | str s => simp only [encodeListEntry] at h; exact prim _ h
      | int n => simp only [encodeListEntry] at h; exact prim _ h
      | bool b => simp only [encodeListEntry] at h; exact prim _ h
      | bytes bs => simp only [encodeListEntry] at h; exact prim _ h
      | list ys => simp only [encodeListEntry] at h; exact prim _ h
  | str s => rw [encodeEntry] at h; exact prim _ h
  | int n => rw [encodeEntry] at h; exact prim _ h
  | bool b => rw [encodeEntry] at h; exact prim _ h
  | bytes bs => rw [encodeEntry] at h; exact prim _ h

/-- C10: `_dict_to_capnp_struct` silently skips any parameter entry whose
(camel-cased) key is not a schema field or whose value has an incompatible
type: the encoded struct contains only recognized fields, an unrecognized
key never appears in the output, every plain value that does appear passed
the type check, and the function is total — it returns only the fields it
set, with no error indication to the caller. -/
theorem capnp_encode_silently_skips (schema : List (String × CapType))
    (data : List (String × PyVal)) :
    (∀ k v, (k, v) ∈ encodeFields schema data →
      (lookupField schema k).isSome = true)
    ∧ (∀ key value, (key, value) ∈ data →
        lookupField schema (toCamelCase key) = none →
        ∀ v, (toCamelCase key, v) ∉ encodeFields schema data)
    ∧ (∀ k v, (k, v) ∈ encodeFields schema data → isPrimVal v = true →
        ∃ t, lookupField schema k = some t ∧ primCompat t v = true) := by
  have main : ∀ k v, (k, v) ∈ encodeFields schema data →
      ∃ t, lookupField schema k = some t ∧
        (isPrimVal v = true → primCompat t v = true) := by
    induction data with
    | nil => intro k v h; simp [encodeFields] at h
    | cons kv rest ih =>
      intro k v h
      obtain ⟨key, value⟩ := kv
      rw [encodeFields] at h
      rcases List.mem_append.mp h with h1 | h2
      · obtain ⟨hk, t, hl, hc⟩ := encodeEntry_key_mem schema _ value k v h1
        exact ⟨t, hk ▸ hl, hc⟩
      · exact ih k v h2
  refine ⟨?_, ?_, ?_⟩
  · intro k v h
    obtain ⟨t, hl, _⟩ := main k v h
    simp [hl]
  · intro key value _ hnone v hmem
    obtain ⟨t, hl, _⟩ := main _ v hmem
    rw [hnone] at hl
    exact Option.noConfusion hl
  · intro k v h hp
    obtain ⟨t, hl, hc⟩ := main k v h
    exact ⟨t, hl, hc hp⟩

/-- Witness for C10: a recognized field evaluated concretely. -/
theorem capnp_encode_silently_skips_witness :
    (lookupField [("flag", CapType.boolT)] "flag").isSome = true :=
  (capnp_encode_silently_skips [("flag", CapType.boolT)]
      [("flag", PyVal.bool true)]).1 "flag" (PyVal.bool true)
    (by
      have h1 : encodeEntry [("flag", CapType.boolT)] (toCamelCase "flag")
          (PyVal.bool true) = [("flag", PyVal.bool true)] := by
        rw [encodeEntry]; rfl
      simp [encodeFields, h1])

/-- Witness for C9: the round trip evaluated on a concrete wire name. -/
theorem casing_roundtrip_wire_names_witness :
    toSnakeCase (toCamelCase "rave_stream_status") = "rave_stream_status" :=
  casing_roundtrip_wire_names "rave_stream_status" (by decide)

end Hoot
